import Mathlib

/-!
Verification of the mode-gated file manager (`file_manager.py`).

A shallow embedding of the repository's single source file
`src/file_manager.py` (an interactive, menu-driven file-management utility)
together with proofs of the specification's claims.

Embedding conventions:

* Filesystem paths handed to the filesystem operations are lists of path
  segments (`Path := List String`), describing an absolute location; the
  filesystem itself is a finite association list from paths to nodes
  (directories, or files with a byte size).
* The startup path validator in `main` (line 158 of the source) works on raw
  path *strings*, exactly as Python's `os.path` functions do; those string
  functions (`os.path.isabs`, `os.path.relpath`, Python's substring test
  `'..' in s`) are modelled character-faithfully in the `PY` namespace.
* `print` output is modelled as the list of printed lines, the log file as
  the list of appended action strings (the `datetime.now()` timestamp prefix
  carries no information relevant to any claim and is abstracted away).
* Each filesystem primitive used by the source (`os.listdir`,
  `os.path.getsize`, `shutil.copy`, `shutil.copytree`, `shutil.move`,
  `shutil.rmtree`, `os.remove`, `os.makedirs`) is modelled as an operation
  on the finite filesystem, failing (`Except`) exactly where the Python
  primitive raises. The model assumes a sane environment: the home
  directory is writable and the log file can always be appended to.
-/

namespace FileManager

/-! ## Python path-string functions (`os.path` on POSIX)

These model the exact string computations performed by the validation line

  `if not os.path.isabs(current_dir) or '..' in os.path.relpath(current_dir, '/Users/harrisonryan'):`
-/

namespace PY

/-- Model of `os.path.isabs` on POSIX: the string starts with a slash. -/
def isabs (s : String) : Bool :=
  match s.data with
  | c :: _ => c = '/'
  | [] => false

/-- Split a character list on `/` and keep the nonempty segments;
`acc` holds the characters of the current segment, reversed. -/
def splitSegsAux : List Char → List Char → List String
  | acc, [] => if acc.isEmpty then [] else [String.mk acc.reverse]
  | acc, c :: t =>
    if c = '/' then
      if acc.isEmpty then splitSegsAux [] t
      else String.mk acc.reverse :: splitSegsAux [] t
    else splitSegsAux (c :: acc) t

/-- Split a path string on `/` and drop empty segments, as
`[x for x in p.split(sep) if x]` does inside `posixpath.relpath`. -/
def splitSegs (s : String) : List String := splitSegsAux [] s.data

/-- Segment normalisation performed by `posixpath.normpath` (hence by
`os.path.abspath`) on an *absolute* path: `.` segments vanish and `..`
pops the previous segment (or vanishes at the root). -/
def normAbsSegs (s : String) : List String :=
  (splitSegs s).foldl
    (fun acc seg =>
      if seg = "." then acc
      else if seg = ".." then acc.dropLast
      else acc ++ [seg]) []

/-- Model of `len(genericpath.commonprefix([a, b]))` on two segment lists:
the length of their longest common prefix. -/
def commonPrefixLen : List String → List String → Nat
  | a :: as, b :: bs => if a = b then commonPrefixLen as bs + 1 else 0
  | _, _ => 0

/-- Join relative segments with `/`, as `posixpath.join(*rel_list)` does
(no segment produced by `relpath` contains a slash, so joining is plain
interleaving). -/
def joinSegs : List String → String
  | [] => ""
  | [x] => x
  | x :: y :: r => x ++ "/" ++ joinSegs (y :: r)

/-- Model of `os.path.relpath(path, start)` on POSIX, for *absolute* `path` and
`start` (the source only reaches the call when `path` is absolute; `start`
is the absolute constant `/Users/harrisonryan`): both are normalised by
`abspath`, the common segment prefix is removed, and one `..` is emitted
per remaining segment of `start`. -/
def relpathAbs (path start : String) : String :=
  let pl := normAbsSegs path
  let sl := normAbsSegs start
  let i := commonPrefixLen sl pl
  let rel := List.replicate (sl.length - i) ".." ++ pl.drop i
  if rel.isEmpty then "." else joinSegs rel

/-- Substring test on character lists (Python's `needle in hay` for `str`). -/
def infixCheck : List Char → List Char → Bool
  | n, [] => n.isEmpty
  | n, c :: t => n.isPrefixOf (c :: t) || infixCheck n t

/-- Python's `'..' in s`: does `s` contain `".."` as a substring? -/
def containsDotDot (s : String) : Bool := infixCheck ['.', '.'] s.data

end PY

/-- The fixed root the startup validator measures against
(line 158 of the source). -/
def fixedRoot : String := "/Users/harrisonryan"

/-- The startup path validator (spec §4.1, its contract `validate(path) -> bool`):
accept iff the path is absolute and the path expressed relative to
`fixedRoot` contains no `..`. This is the negation of the rejection test on
line 158 of the source. -/
def validate (dir : String) : Bool :=
  PY.isabs dir && ! PY.containsDotDot (PY.relpathAbs dir fixedRoot)

/-- What `main` does before the menu loop: either it exits with a status
code (printing a message), or it enters the menu loop on a current
directory. -/
inductive StartupResult where
  | exitWith (code : Nat) (message : String)
  | menuLoop (currentDir : String)
  deriving DecidableEq, Repr

/-- Lines 155–160 of `main`: resolve the `-d` argument (defaulting to
`/Users/harrisonryan/Downloads`), validate it, and on rejection print
"Invalid directory path." and exit with status 1, never reaching the menu
loop. -/
def mainStartup (dArg : Option String) : StartupResult :=
  let current_dir := dArg.getD "/Users/harrisonryan/Downloads"
  if ¬ PY.isabs current_dir ∨ PY.containsDotDot (PY.relpathAbs current_dir fixedRoot) then
    .exitWith 1 "Invalid directory path."
  else
    .menuLoop current_dir

/-! ## The filesystem model

Absolute locations are lists of path segments; the filesystem is a finite
association list from paths to nodes. The empty path `[]` is the
filesystem root `/`, which always exists and is a directory; it never
appears as a key of the association list. -/

/-- An absolute filesystem location, as the list of its path segments. -/
abbrev Path := List String

/-- A filesystem node: a directory, or a file with a byte size. -/
inductive Node where
  | dir
  | file (size : Nat)
  deriving DecidableEq, Repr

/-- A finite filesystem: an association list from paths to nodes (first
entry with a given path wins on lookup). -/
structure FS where
  entries : List (Path × Node)
  deriving DecidableEq, Repr

/-- First-match lookup in the association list. -/
def lookupEntry (p : Path) : List (Path × Node) → Option Node
  | [] => none
  | e :: es => if e.1 = p then some e.2 else lookupEntry p es

/-- The node at `p`, if any; the root `[]` is always a directory. -/
def FS.node (fs : FS) (p : Path) : Option Node :=
  if p = [] then some .dir else lookupEntry p fs.entries

/-- Model of `os.path.exists`. -/
def FS.existsB (fs : FS) (p : Path) : Bool := (fs.node p).isSome

/-- Model of `os.path.isdir`. -/
def FS.isDirB (fs : FS) (p : Path) : Bool := fs.node p = some .dir

/-- Write a node at `p`: replace the first entry at `p`, or append. -/
def setEntry (p : Path) (n : Node) : List (Path × Node) → List (Path × Node)
  | [] => [(p, n)]
  | e :: es => if e.1 = p then (p, n) :: es else e :: setEntry p n es

/-- Write a node at `p` (never used with `p = []`). -/
def FS.set (fs : FS) (p : Path) (n : Node) : FS := ⟨setEntry p n fs.entries⟩

/-- Keep only the entries whose path satisfies `Q`. -/
def filterKeys (Q : Path → Bool) (l : List (Path × Node)) : List (Path × Node) :=
  l.filter (fun e => Q e.1)

/-- The nonempty prefixes of a path, shortest first (the chain of
directories `os.makedirs` walks). -/
def pathPrefixes (p : Path) : List Path :=
  (List.range p.length).map (fun i => p.take (i + 1))

/-- Model of `os.makedirs(p)`: create a directory at every nonempty prefix of `p`
that does not exist yet. (Call sites in the source guard the call with
`if not os.path.exists(p)`; the model assumes no regular file occupies a
prefix of `p`, which holds of the home-rooted backup directory it is
called on.) One `mkdirsStep` creates one directory of the chain if it is
missing. -/
def mkdirsStep (f : FS) (q : Path) : FS :=
  if f.existsB q then f else f.set q .dir

/-- See `mkdirsStep`. -/
def FS.mkdirs (fs : FS) (p : Path) : FS :=
  (pathPrefixes p).foldl mkdirsStep fs

/-- Model of `os.path.basename`: the last segment (empty for the root). -/
def basename (p : Path) : String := p.getLastD ""

/-- Render a path as the absolute string Python would have been given. -/
def pathStr (p : Path) : String := "/" ++ String.intercalate "/" p

/-- Model of `shutil.copytree(src, dst)`: fails if `dst` already exists
(`FileExistsError`) or `src` is not a directory; otherwise creates `dst`
(and missing ancestors, via its internal `makedirs`) and copies every
entry strictly below `src` to the corresponding path below `dst`. -/
def FS.copytree (fs : FS) (src dst : Path) : Except String FS :=
  if fs.existsB dst then .error "FileExistsError"
  else if fs.node src ≠ some .dir then .error "NotADirectoryError"
  else
    let base := fs.mkdirs dst
    let moved := fs.entries.filterMap
      (fun e =>
        if src.isPrefixOf e.1 ∧ e.1 ≠ src then
          some (dst ++ e.1.drop src.length, e.2)
        else none)
    .ok ⟨base.entries ++ moved⟩

/-- Model of `shutil.copy(src, dst)`: fails if `src` does not exist or is a
directory; if `dst` is an existing directory the file is placed inside it
under `src`'s base name; an existing file at the target is overwritten; a
directory at the target, or a missing parent directory, is an error. -/
def FS.copyFile (fs : FS) (src dst : Path) : Except String FS :=
  match fs.node src with
  | none => .error "FileNotFoundError"
  | some .dir => .error "IsADirectoryError"
  | some (.file sz) =>
    let target := if fs.isDirB dst then dst ++ [basename src] else dst
    match fs.node target with
    | some .dir => .error "IsADirectoryError"
    | _ =>
      if fs.isDirB target.dropLast then .ok (fs.set target (.file sz))
      else .error "FileNotFoundError"

/-- Model of `shutil.move(src, dst)` (same-filesystem rename path): fails if `src`
does not exist; if `dst` is an existing directory the real target is
`dst/basename(src)`, which must not already exist; moving a tree below
itself fails; otherwise the `src` subtree is renamed to the target
(silently replacing a file already at the target, as `os.rename` does). -/
def FS.moveOp (fs : FS) (src dst : Path) : Except String FS :=
  match fs.node src with
  | none => .error "FileNotFoundError"
  | some _ =>
    let target := if fs.isDirB dst then dst ++ [basename src] else dst
    if fs.isDirB dst ∧ fs.existsB target then .error "DestinationExists"
    else if src.isPrefixOf target then .error "CannotMoveIntoItself"
    else
      let kept := filterKeys
        (fun q => ! (src.isPrefixOf q || q == target)) fs.entries
      let moved := fs.entries.filterMap
        (fun e =>
          if src.isPrefixOf e.1 then
            some (target ++ e.1.drop src.length, e.2)
          else none)
      .ok ⟨kept ++ moved⟩

/-- Model of `shutil.rmtree(p)`: remove the whole subtree at a directory. -/
def FS.rmtree (fs : FS) (p : Path) : Except String FS :=
  if fs.node p = some .dir ∧ p ≠ [] then
    .ok ⟨filterKeys (fun q => ! p.isPrefixOf q) fs.entries⟩
  else .error "NotADirectoryError"

/-- Model of `os.remove(p)`: remove a file. -/
def FS.removeFile (fs : FS) (p : Path) : Except String FS :=
  match fs.node p with
  | some (.file _) => .ok ⟨filterKeys (fun q => q != p) fs.entries⟩
  | some .dir => .error "IsADirectoryError"
  | none => .error "FileNotFoundError"

/-- The name `q` contributes to a listing of directory `p`: `some n` when
`q = p ++ [n]`. -/
def childName (p q : Path) : Option String :=
  if q.take p.length = p then
    match q.drop p.length with
    | [n] => some n
    | _ => none
  else none

/-- The immediate child names of `p`, in association-list order (the
iteration order of the underlying directory read). -/
def FS.childNames (fs : FS) (p : Path) : List String :=
  fs.entries.filterMap (fun e => childName p e.1)

/-- Model of `os.listdir(p)`: the immediate child names of a directory, in the
primitive's iteration order; fails on a missing path or a file. -/
def FS.listdirNames (fs : FS) (p : Path) : Except String (List String) :=
  match fs.node p with
  | some .dir => .ok (fs.childNames p)
  | some (.file _) => .error "NotADirectoryError"
  | none => .error "FileNotFoundError"

/-- Model of `os.path.getsize(p)`: the byte size of a file; fails on a missing
path. (On a directory Python would report the directory's block size; the
only call site never reaches that case, and the model returns 0.) -/
def FS.getsize (fs : FS) (p : Path) : Except String Nat :=
  match fs.node p with
  | some (.file sz) => .ok sz
  | some .dir => .ok 0
  | none => .error "FileNotFoundError"

/-! ## The source's operations (lines 51–144) -/

/-- The body of `list_directory`'s `for` loop (lines 60–66): each entry is
printed as it is produced, a directory as `name/`, anything else as
`name - size bytes`; an exception raised mid-loop (by `os.path.getsize`)
aborts the loop, keeping the lines already printed and adding the
`except`-branch error line. -/
def renderLoop (fs : FS) (path : Path) : List String → List String
  | [] => []
  | n :: rest =>
    if fs.isDirB (path ++ [n]) then (n ++ "/") :: renderLoop fs path rest
    else
      match fs.getsize (path ++ [n]) with
      | .ok sz => (n ++ " - " ++ toString sz ++ " bytes") :: renderLoop fs path rest
      | .error e => ["Error listing directory: " ++ e]

/-- Function `list_directory(path)` (lines 51–68): list the entries of `path`,
printing each as produced; any exception is caught and printed as
`Error listing directory: ...` — nothing propagates to the caller. -/
def list_directory (fs : FS) (path : Path) : List String :=
  match fs.listdirNames path with
  | .error e => ["Error listing directory: " ++ e]
  | .ok names => renderLoop fs path names

/-- Function `change_directory(current_path)` (lines 70–87): returns the prompted
path when it names a directory, otherwise prints "Invalid directory." and
returns the original path. (Defined by the source but never called from
`main`'s menu loop.) -/
def change_directory (fs : FS) (current_path new_path : Path) :
    Path × List String :=
  if ¬ fs.isDirB new_path then (current_path, ["Invalid directory."])
  else (new_path, [])

/-- Function `copy_item(source, destination)` (lines 89–105): directories are
copied with `shutil.copytree`, files with `shutil.copy`; any exception is
caught and printed as `Error copying item: ...`. -/
def copy_item (fs : FS) (source destination : Path) : FS × List String :=
  if fs.isDirB source then
    match fs.copytree source destination with
    | .ok f => (f, [basename source ++ " was copied to " ++ pathStr destination])
    | .error e => (fs, ["Error copying item: " ++ e])
  else
    match fs.copyFile source destination with
    | .ok f => (f, [basename source ++ " was copied to " ++ pathStr destination])
    | .error e => (fs, ["Error copying item: " ++ e])

/-- Function `move_item(source, destination)` (lines 107–119): `shutil.move` with
the exception caught and printed as `Error moving item: ...`. -/
def move_item (fs : FS) (source destination : Path) : FS × List String :=
  match fs.moveOp source destination with
  | .ok f => (f, [basename source ++ " was moved to " ++ pathStr destination])
  | .error e => (fs, ["Error moving item: " ++ e])

/-- The guarded `os.makedirs` pattern
`if not os.path.exists(backup_dir): os.makedirs(backup_dir)` that appears
both inside `delete_item` (lines 130–131) and in `main`'s delete branch
(lines 198–199). -/
def deletePrep (fs : FS) (backup_dir : Path) : FS :=
  if fs.existsB backup_dir then fs else fs.mkdirs backup_dir

/-- Line 133 of `delete_item`: the backup target
`os.path.join(backup_dir, f"deleted_{item_name}")`. -/
def backupTarget (backup_dir item_path : Path) : Path :=
  backup_dir ++ ["deleted_" ++ basename item_path]

/-- Lines 134–137 of `delete_item`: back the item up, with `copytree` for
a directory and `copy` otherwise. -/
def deleteCopyStep (fs : FS) (item_path backup_path : Path) : Except String FS :=
  if fs.isDirB item_path then fs.copytree item_path backup_path
  else fs.copyFile item_path backup_path

/-- Lines 138–141 of `delete_item`: remove the original, with `rmtree` for
a directory and `os.remove` otherwise. -/
def deleteRemoveStep (fs : FS) (item_path : Path) : Except String FS :=
  if fs.isDirB item_path then fs.rmtree item_path
  else fs.removeFile item_path

/-- Function `delete_item(item_path, backup_dir)` (lines 121–144): ensure the
backup directory, copy the item to `backup_dir/deleted_<name>`, and only
then remove the original; the first exception aborts the rest of the
`try` block and is printed as `Error deleting item: ...`. -/
def delete_item (fs : FS) (item_path backup_dir : Path) : FS × List String :=
  let fs1 := deletePrep fs backup_dir
  match deleteCopyStep fs1 item_path (backupTarget backup_dir item_path) with
  | .error e => (fs1, ["Error deleting item: " ++ e])
  | .ok fs2 =>
    match deleteRemoveStep fs2 item_path with
    | .error e => (fs2, ["Error deleting item: " ++ e])
    | .ok fs3 => (fs3, [basename item_path ++ " was deleted and backed up."])

/-! ## The mode-gated dispatcher (`main`, lines 146–206) -/

/-- The `-m` argument: one of `basic`, `elevated`, `admin` (enforced by
`argparse`'s `choices`). -/
inductive Mode where
  | basic
  | elevated
  | admin
  deriving DecidableEq, Repr

/-- The user's home directory (`os.path.expanduser('~')`). -/
def homeDir : Path := ["Users", "harrisonryan"]

/-- Line 197: `os.path.join(os.path.expanduser('~'), 'backups')`. -/
def backupsDir : Path := homeDir ++ ["backups"]

/-- The menu lines printed at the top of each loop iteration
(lines 164–171), gated by the mode. -/
def menuLines (m : Mode) : List String :=
  ["\nMenu:", "1. List directory"]
    ++ (if m = .elevated ∨ m = .admin then ["2. Copy item"] else [])
    ++ (if m = .admin then ["3. Move item", "4. Delete item"] else [])
    ++ ["0. Exit"]

/-- The numeric value of a nonempty list of decimal digits. -/
def digitsToNat? (ds : List Char) : Option Nat :=
  if ds.isEmpty then none
  else some (ds.foldl (fun a c => a * 10 + (c.toNat - 48)) 0)

/-- The option number a menu line advertises: its leading digits. -/
def lineOption (l : String) : Option Nat :=
  digitsToNat? (l.data.takeWhile Char.isDigit)

/-- The set of menu options rendered for a mode, in print order. -/
def menuOptions (m : Mode) : List Nat := (menuLines m).filterMap lineOption

/-- The mutable state of one `main` session: the filesystem, the log file
(as the list of appended action strings), and `current_dir`. -/
structure Sess where
  fs : FS
  log : List String
  currentDir : Path
  deriving DecidableEq, Repr

/-- The outcome of one iteration of the menu loop: the updated session,
the lines printed after the choice was read, and whether the loop was
exited (`break`). -/
structure StepOut where
  sess : Sess
  printed : List String
  exited : Bool
  deriving DecidableEq, Repr

/-- One iteration of `main`'s menu loop after the choice has been read
(lines 175–206). `arg1`/`arg2` are the paths the branch would read from
subsequent prompts (source & destination, or the item to delete). -/
def dispatchStep (m : Mode) (s : Sess) (choice : String) (arg1 arg2 : Path) :
    StepOut :=
  if choice = "0" then
    { sess := s, printed := [], exited := true }
  else if choice = "1" then
    { sess := s, printed := list_directory s.fs s.currentDir, exited := false }
  else if choice = "2" ∧ (m = .elevated ∨ m = .admin) then
    if s.fs.existsB arg1 then
      let r := copy_item s.fs arg1 arg2
      { sess := { fs := r.1,
                  log := s.log ++ ["Copied " ++ pathStr arg1 ++ " to " ++ pathStr arg2],
                  currentDir := s.currentDir },
        printed := r.2, exited := false }
    else
      { sess := s, printed := ["Source does not exist."], exited := false }
  else if choice = "3" ∧ m = .admin then
    if s.fs.existsB arg1 then
      let r := move_item s.fs arg1 arg2
      { sess := { fs := r.1,
                  log := s.log ++ ["Moved " ++ pathStr arg1 ++ " to " ++ pathStr arg2],
                  currentDir := s.currentDir },
        printed := r.2, exited := false }
    else
      { sess := s, printed := ["Source does not exist."], exited := false }
  else if choice = "4" ∧ m = .admin then
    let fs1 := deletePrep s.fs backupsDir
    if fs1.existsB arg1 then
      let r := delete_item fs1 arg1 backupsDir
      { sess := { fs := r.1,
                  log := s.log ++ ["Deleted " ++ pathStr arg1],
                  currentDir := s.currentDir },
        printed := r.2, exited := false }
    else
      { sess := { s with fs := fs1 }, printed := ["Item does not exist."],
        exited := false }
  else
    { sess := s, printed := ["Invalid choice."], exited := false }

/-- A scripted interaction for one loop iteration: the menu choice and the
paths the branch's prompts would receive. -/
structure MenuInput where
  choice : String
  arg1 : Path
  arg2 : Path
  deriving DecidableEq, Repr

/-- The menu loop (lines 162–206) run on a script of inputs: each
iteration prints the menu, dispatches one choice, and stops on `break`
(choice `0`) or when the script is exhausted. -/
def runLoop (m : Mode) : Sess → List MenuInput → Sess × List String
  | s, [] => (s, [])
  | s, i :: rest =>
    let r := dispatchStep m s i.choice i.arg1 i.arg2
    if r.exited then (r.sess, menuLines m ++ r.printed)
    else
      let rec2 := runLoop m r.sess rest
      (rec2.1, menuLines m ++ r.printed ++ rec2.2)

/-! ## Derived notions used to state the claims -/

/-- The byte size the listing renders for a non-directory entry
(the entry is a file whenever it is listed; `0` is a don't-care). -/
def sizeD (fs : FS) (p : Path) : Nat :=
  match fs.node p with
  | some (.file sz) => sz
  | _ => 0

/-- How the specification (§4.2) says one listed entry is rendered:
`<name>/` for a directory, `<name> - <size> bytes` otherwise. -/
def renderEntry (fs : FS) (path : Path) (n : String) : String :=
  if fs.isDirB (path ++ [n]) then n ++ "/"
  else n ++ " - " ++ toString (sizeD fs (path ++ [n])) ++ " bytes"

/-- A choice whose gating mode is not satisfied by the current mode:
choice `2` under `basic`; choices `3` or `4` under `basic` or `elevated`. -/
def gatingViolated (m : Mode) (choice : String) : Prop :=
  (choice = "2" ∧ m = .basic) ∨
    ((choice = "3" ∨ choice = "4") ∧ (m = .basic ∨ m = .elevated))

/-! ## Concrete filesystems used as witnesses -/

/-- A small filesystem: a home area, `/tmp` with a file and a directory,
and `/b` with same-named copies. -/
def fsA : FS :=
  ⟨[(["Users"], .dir), (["Users", "harrisonryan"], .dir),
    (["tmp"], .dir), (["tmp", "a.txt"], .file 10),
    (["tmp", "d"], .dir), (["tmp", "d", "x"], .file 3),
    (["b"], .dir), (["b", "a.txt"], .file 5),
    (["b", "d"], .dir), (["b", "d", "y"], .file 7)]⟩

/-- Variant of `fsA` in which the backup directory already holds a directory named
`deleted_d`, so that backing up `/tmp/d` fails. -/
def fsB : FS :=
  ⟨fsA.entries ++
    [(["Users", "harrisonryan", "backups"], .dir),
     (["Users", "harrisonryan", "backups", "deleted_d"], .dir)]⟩

/-- Two distinct directories both named `N`, with different contents. -/
def fsC : FS :=
  ⟨[(["Users"], .dir), (["Users", "harrisonryan"], .dir),
    (["a"], .dir), (["a", "N"], .dir), (["a", "N", "x"], .file 3),
    (["b"], .dir), (["b", "N"], .dir), (["b", "N", "y"], .file 7)]⟩

/-- Two distinct files both named `N`, with different sizes. -/
def fsD : FS :=
  ⟨[(["Users"], .dir), (["Users", "harrisonryan"], .dir),
    (["a"], .dir), (["a", "N"], .file 3),
    (["b"], .dir), (["b", "N"], .file 7)]⟩

/-! ## Claims C1, C3, C4, C7 -/

/-- Claim C1: For every permission mode and every menu choice whose gating
mode is not satisfied by that mode (choice 2 under basic; choices 3 or 4
under basic or elevated), the dispatcher prints "Invalid choice.", the
session (filesystem and log) is unchanged, and the gated action is never
reached. -/
theorem claim_C1 (m : Mode) (choice : String) (s : Sess) (a b : Path)
    (h : gatingViolated m choice) :
    dispatchStep m s choice a b =
      { sess := s, printed := ["Invalid choice."], exited := false } := by
  rcases h with ⟨hc, hm⟩ | ⟨hc | hc, hm | hm⟩ <;> subst hc <;> subst hm <;> rfl

/-- Witness for C1: choice `2` under `basic` on a concrete session. -/
theorem claim_C1_witness :
    gatingViolated .basic "2" ∧
    dispatchStep .basic ⟨fsA, [], ["tmp"]⟩ "2" ["tmp", "a.txt"] ["b"] =
      { sess := ⟨fsA, [], ["tmp"]⟩, printed := ["Invalid choice."],
        exited := false } :=
  ⟨Or.inl ⟨rfl, rfl⟩,
    claim_C1 .basic "2" ⟨fsA, [], ["tmp"]⟩ ["tmp", "a.txt"] ["b"]
      (Or.inl ⟨rfl, rfl⟩)⟩

/-- Claim C3: The menu options rendered are exactly those of the gating
table — `{0, 1}` for basic, plus `2` for elevated, plus `3` and `4` for
admin — and the visible option sets form a strict inclusion chain
basic ⊂ elevated ⊂ admin. -/
theorem claim_C3 :
    menuOptions .basic = [1, 0] ∧
    menuOptions .elevated = [1, 2, 0] ∧
    menuOptions .admin = [1, 2, 3, 4, 0] ∧
    (∀ x ∈ menuOptions .basic, x ∈ menuOptions .elevated) ∧
    (∀ x ∈ menuOptions .elevated, x ∈ menuOptions .admin) ∧
    (2 ∈ menuOptions .elevated ∧ 2 ∉ menuOptions .basic) ∧
    (3 ∈ menuOptions .admin ∧ 3 ∉ menuOptions .elevated) ∧
    (4 ∈ menuOptions .admin ∧ 4 ∉ menuOptions .elevated) := by
  decide

/-- Claim C4: The startup validator accepts a path directly under the fixed
root, rejects a path containing a parent-directory traversal, rejects a
non-absolute path, and on rejection `main` prints "Invalid directory
path." and exits with status 1 before entering the menu loop. -/
theorem claim_C4 :
    validate "/Users/harrisonryan/sub" = true ∧
    validate "/Users/harrisonryan/../etc" = false ∧
    validate "relative/dir" = false ∧
    mainStartup (some "/Users/harrisonryan/sub") =
      .menuLoop "/Users/harrisonryan/sub" ∧
    mainStartup (some "/Users/harrisonryan/../etc") =
      .exitWith 1 "Invalid directory path." ∧
    mainStartup (some "relative/dir") =
      .exitWith 1 "Invalid directory path." := by
  decide

/-! ## Claim C5: what the relative-path-string check actually catches -/

lemma commonPrefixLen_le (a : List String) : ∀ b, PY.commonPrefixLen a b ≤ a.length := by
  induction a with
  | nil => intro b; cases b <;> simp [PY.commonPrefixLen]
  | cons x xs ih =>
    intro b
    cases b with
    | nil => simp [PY.commonPrefixLen]
    | cons y ys =>
      simp only [PY.commonPrefixLen, List.length_cons]
      split
      · exact Nat.succ_le_succ (ih ys)
      · omega

lemma prefix_of_commonPrefixLen (a : List String) :
    ∀ b, PY.commonPrefixLen a b = a.length → a <+: b := by
  induction a with
  | nil => intro b _; exact List.nil_prefix
  | cons x xs ih =>
    intro b h
    cases b with
    | nil => simp [PY.commonPrefixLen] at h
    | cons y ys =>
      simp only [PY.commonPrefixLen, List.length_cons] at h
      split at h
      · next hxy => subst hxy; exact List.cons_prefix_cons.mpr ⟨rfl, ih ys (by omega)⟩
      · omega

lemma infixCheck_dotdot (l : List Char) :
    PY.infixCheck ['.', '.'] ('.' :: '.' :: l) = true := by
  simp [PY.infixCheck, List.isPrefixOf]

lemma containsDotDot_dotdot_append (rest : String) :
    PY.containsDotDot (".." ++ rest) = true := by
  unfold PY.containsDotDot
  rw [String.data_append]
  have h : (".." : String).data = ['.', '.'] := rfl
  rw [h, List.cons_append, List.cons_append, List.nil_append]
  exact infixCheck_dotdot _

lemma joinSegs_dotdot (t : List String) :
    ∃ rest, PY.joinSegs (".." :: t) = ".." ++ rest := by
  cases t with
  | nil => exact ⟨"", by simp [PY.joinSegs]⟩
  | cons y r =>
    refine ⟨"/" ++ PY.joinSegs (y :: r), ?_⟩
    show ".." ++ "/" ++ PY.joinSegs (y :: r) = ".." ++ ("/" ++ PY.joinSegs (y :: r))
    rw [String.append_assoc]

/-- If the normalised target does not extend the normalised start, the
relative path Python computes begins with a `..` segment, so the `'..'`
substring test fires. -/
lemma containsDotDot_relpathAbs (s start : String)
    (h2 : ¬ (PY.normAbsSegs start <+: PY.normAbsSegs s)) :
    PY.containsDotDot (PY.relpathAbs s start) = true := by
  simp only [PY.relpathAbs]
  set pl := PY.normAbsSegs s with hpl
  set sl := PY.normAbsSegs start with hsl
  have hle := commonPrefixLen_le sl pl
  have hne : PY.commonPrefixLen sl pl ≠ sl.length := fun h =>
    h2 (prefix_of_commonPrefixLen sl pl h)
  obtain ⟨k, hk⟩ : ∃ k, sl.length - PY.commonPrefixLen sl pl = k + 1 :=
    ⟨sl.length - PY.commonPrefixLen sl pl - 1, by omega⟩
  rw [hk, List.replicate_succ, List.cons_append]
  simp only [List.isEmpty_cons, Bool.false_eq_true, if_false]
  obtain ⟨rest, hrest⟩ :=
    joinSegs_dotdot (List.replicate k ".." ++ pl.drop (PY.commonPrefixLen sl pl))
  rw [hrest]
  exact containsDotDot_dotdot_append rest

/-- Every path whose normalised form lies outside the fixed root is
rejected by the validator's string check. -/
lemma validate_outside_root (s : String)
    (h2 : ¬ (PY.normAbsSegs fixedRoot <+: PY.normAbsSegs s)) :
    validate s = false := by
  unfold validate
  rw [containsDotDot_relpathAbs s fixedRoot h2]
  simp

/-- Claim C5, corrected. The original claim — some differently-rooted
absolute path slips past the relative-path-string check — is false: every
absolute path whose normalised segment form does not extend the fixed
root's is rejected by the validator. Only symlink resolution (invisible to
a string check) can escape the root. -/
theorem claim_C5 (s : String) (_h1 : PY.isabs s = true)
    (h2 : ¬ (PY.normAbsSegs fixedRoot <+: PY.normAbsSegs s)) :
    validate s = false :=
  validate_outside_root s h2

/-- Witness for C5: the differently-rooted absolute path `/etc` is
rejected. -/
theorem claim_C5_witness :
    PY.isabs "/etc" = true ∧
    ¬ (PY.normAbsSegs fixedRoot <+: PY.normAbsSegs "/etc") ∧
    validate "/etc" = false :=
  ⟨by decide, by decide, claim_C5 "/etc" (by decide) (by decide)⟩

/-- Counterexample to C5 as stated: there is no absolute path lying
outside the fixed root (no symlinks exist in the model) that the
validator accepts. -/
theorem claim_C5_counterexample :
    ¬ ∃ s : String, PY.isabs s = true ∧
      ¬ (PY.normAbsSegs fixedRoot <+: PY.normAbsSegs s) ∧
      validate s = true := by
  rintro ⟨s, _, h2, h3⟩
  rw [validate_outside_root s h2] at h3
  exact absurd h3 (by decide)

/-! ## Filesystem lemmas -/

lemma existsB_of_node (fs : FS) (q : Path) (nd : Node) (h : fs.node q = some nd) :
    fs.existsB q = true := by
  simp [FS.existsB, h]

lemma node_of_existsB (fs : FS) (q : Path) (h : fs.existsB q = true) :
    ∃ nd, fs.node q = some nd := by
  simpa [FS.existsB, Option.isSome_iff_exists] using h

lemma existsB_nil (fs : FS) : fs.existsB [] = true := by
  simp [FS.existsB, FS.node]

lemma isDirB_nil (fs : FS) : fs.isDirB [] = true := by
  simp [FS.isDirB, FS.node]

lemma lookupEntry_append (p : Path) (l1 l2 : List (Path × Node)) :
    lookupEntry p (l1 ++ l2) =
      match lookupEntry p l1 with
      | some n => some n
      | none => lookupEntry p l2 := by
  induction l1 with
  | nil => simp [lookupEntry]
  | cons e es ih => by_cases h : e.1 = p <;> simp [lookupEntry, h, ih]

lemma lookupEntry_filterKeys (Q : Path → Bool) (p : Path)
    (l : List (Path × Node)) :
    lookupEntry p (filterKeys Q l) = if Q p then lookupEntry p l else none := by
  induction l with
  | nil => simp [filterKeys, lookupEntry]
  | cons e es ih =>
    simp only [filterKeys, List.filter_cons] at ih ⊢
    by_cases hq : Q e.1
    · by_cases hp : e.1 = p
      · subst hp; simp [hq, lookupEntry]
      · simp [hq, lookupEntry, hp, ih]
    · by_cases hp : e.1 = p
      · subst hp; simp [hq, ih, lookupEntry]
      · simp [hq, lookupEntry, hp, ih]

lemma lookupEntry_setEntry_self (p : Path) (n : Node) (l : List (Path × Node)) :
    lookupEntry p (setEntry p n l) = some n := by
  induction l with
  | nil => simp [setEntry, lookupEntry]
  | cons e es ih => by_cases h : e.1 = p <;> simp [setEntry, h, lookupEntry, ih]

lemma lookupEntry_setEntry_ne (p q : Path) (n : Node) (l : List (Path × Node))
    (h : q ≠ p) :
    lookupEntry q (setEntry p n l) = lookupEntry q l := by
  have hpq : p ≠ q := fun hh => h hh.symm
  induction l with
  | nil => simp [setEntry, lookupEntry, hpq]
  | cons e es ih =>
    by_cases he : e.1 = p
    · subst he
      simp [setEntry, lookupEntry, hpq]
    · by_cases hq : e.1 = q <;> simp [setEntry, he, lookupEntry, hq, h, ih]

lemma node_set_self (fs : FS) (p : Path) (n : Node) (hp : p ≠ []) :
    (fs.set p n).node p = some n := by
  simp [FS.node, FS.set, hp, lookupEntry_setEntry_self]

lemma node_set_ne (fs : FS) (p q : Path) (n : Node) (h : q ≠ p) :
    (fs.set p n).node q = fs.node q := by
  by_cases hq : q = [] <;>
    simp [FS.node, FS.set, hq, lookupEntry_setEntry_ne _ _ _ _ h]

lemma foldl_mkdirsStep_node (l : List Path) (fs : FS) (q : Path) (nd : Node)
    (h : fs.node q = some nd) :
    (l.foldl mkdirsStep fs).node q = some nd := by
  induction l generalizing fs with
  | nil => exact h
  | cons r t ih =>
    apply ih
    unfold mkdirsStep
    by_cases he : fs.existsB r
    · simp [he, h]
    · simp only [he, if_false, Bool.false_eq_true]
      by_cases hrq : q = r
      · subst hrq; exact absurd (existsB_of_node fs q nd h) he
      · rw [node_set_ne _ _ _ _ hrq]; exact h

lemma mkdirs_node_mono (fs : FS) (p q : Path) (nd : Node)
    (h : fs.node q = some nd) : (fs.mkdirs p).node q = some nd :=
  foldl_mkdirsStep_node _ _ _ _ h

lemma mkdirs_existsB_mono (fs : FS) (p q : Path) (h : fs.existsB q = true) :
    (fs.mkdirs p).existsB q = true := by
  obtain ⟨nd, hnd⟩ := node_of_existsB fs q h
  exact existsB_of_node _ _ _ (mkdirs_node_mono fs p q nd hnd)

lemma foldl_mkdirsStep_existsB_mem (l : List Path) (fs : FS) (q : Path)
    (h : q ∈ l) : (l.foldl mkdirsStep fs).existsB q = true := by
  induction l generalizing fs with
  | nil => cases h
  | cons r t ih =>
    rcases List.mem_cons.mp h with rfl | ht
    · have h1 : (mkdirsStep fs q).existsB q = true := by
        unfold mkdirsStep
        by_cases he : fs.existsB q
        · simp [he]
        · simp only [he, if_false, Bool.false_eq_true]
          by_cases hq : q = []
          · subst hq; exact existsB_nil _
          · exact existsB_of_node _ _ _ (node_set_self fs q .dir hq)
      obtain ⟨nd, hnd⟩ := node_of_existsB _ _ h1
      exact existsB_of_node _ _ _ (foldl_mkdirsStep_node t _ q nd hnd)
    · exact ih (mkdirsStep fs r) ht

lemma self_mem_pathPrefixes (p : Path) (hp : p ≠ []) : p ∈ pathPrefixes p := by
  have hl : 0 < p.length := List.length_pos.mpr hp
  refine List.mem_map.mpr ⟨p.length - 1, List.mem_range.mpr (by omega), ?_⟩
  rw [show p.length - 1 + 1 = p.length from by omega, List.take_length]

lemma mkdirs_existsB_self (fs : FS) (p : Path) (hp : p ≠ []) :
    (fs.mkdirs p).existsB p = true :=
  foldl_mkdirsStep_existsB_mem _ _ _ (self_mem_pathPrefixes p hp)

lemma deletePrep_existsB_mono (fs : FS) (bd q : Path)
    (h : fs.existsB q = true) : (deletePrep fs bd).existsB q = true := by
  unfold deletePrep
  by_cases hb : fs.existsB bd
  · simpa [hb] using h
  · simp only [hb, if_false, Bool.false_eq_true]
    exact mkdirs_existsB_mono fs bd q h

lemma copytree_ok_existsB_dst (fs : FS) (src dst : Path) (fs' : FS)
    (h : fs.copytree src dst = .ok fs') : fs'.existsB dst = true := by
  unfold FS.copytree at h
  by_cases h1 : fs.existsB dst
  · simp [h1] at h
  · simp only [h1, if_false, Bool.false_eq_true] at h
    split at h
    · exact absurd h (by simp)
    · have hdst : dst ≠ [] := by
        intro e; subst e; exact h1 (existsB_nil fs)
      obtain ⟨nd, hnd⟩ := node_of_existsB _ _ (mkdirs_existsB_self fs dst hdst)
      injection h with h
      subst h
      apply existsB_of_node _ _ nd
      simp only [FS.node, hdst, if_neg, lookupEntry_append]
      rw [FS.node, if_neg hdst] at hnd
      simp [hnd]

lemma copyFile_ok_existsB_dst (fs : FS) (src dst : Path) (fs' : FS)
    (h : fs.copyFile src dst = .ok fs') : fs'.existsB dst = true := by
  unfold FS.copyFile at h
  split at h
  · exact absurd h (by simp)
  · exact absurd h (by simp)
  · next sz hsrc =>
    by_cases hd : fs.isDirB dst
    · simp only [hd, if_true] at h
      have hne : dst ≠ dst ++ [basename src] := by
        intro e
        have := congrArg List.length e
        simp at this
      split at h
      · exact absurd h (by simp)
      · split at h
        · injection h with h
          subst h
          apply existsB_of_node _ _ .dir
          rw [node_set_ne _ _ _ _ hne]
          simpa [FS.isDirB] using hd
        · exact absurd h (by simp)
    · simp only [hd, if_false, Bool.false_eq_true] at h
      have hdst : dst ≠ [] := by
        intro e; subst e; exact hd (isDirB_nil fs)
      split at h
      · exact absurd h (by simp)
      · split at h
        · injection h with h
          subst h
          exact existsB_of_node _ _ _ (node_set_self fs dst _ hdst)
        · exact absurd h (by simp)

lemma deleteCopyStep_ok_existsB (fs1 fs2 : FS) (item bp : Path)
    (h : deleteCopyStep fs1 item bp = .ok fs2) : fs2.existsB bp = true := by
  unfold deleteCopyStep at h
  split at h
  · exact copytree_ok_existsB_dst _ _ _ _ h
  · exact copyFile_ok_existsB_dst _ _ _ _ h

lemma deleteRemoveStep_ok (fs2 fs3 : FS) (item : Path)
    (h : deleteRemoveStep fs2 item = .ok fs3) :
    fs3.existsB item = false ∧
      ∀ q, q ≠ [] → item.isPrefixOf q = false → fs3.node q = fs2.node q := by
  unfold deleteRemoveStep at h
  split at h
  · -- directory: rmtree
    unfold FS.rmtree at h
    split at h
    · next hcond =>
      injection h with h
      subst h
      obtain ⟨hdir, hne⟩ := hcond
      constructor
      · simp [FS.existsB, FS.node, hne, lookupEntry_filterKeys]
      · intro q hq hpre
        simp [FS.node, hq, lookupEntry_filterKeys, hpre]
    · exact absurd h (by simp)
  · -- file: os.remove
    unfold FS.removeFile at h
    split at h
    · next sz hfile =>
      injection h with h
      subst h
      have hne : item ≠ [] := by
        intro e; subst e; simp [FS.node] at hfile
      constructor
      · simp [FS.existsB, FS.node, hne, lookupEntry_filterKeys]
      · intro q hq hpre
        have hqi : q ≠ item := by
          intro e
          rw [e] at hpre
          have hrefl : List.isPrefixOf item item = true := by simp
          rw [hrefl] at hpre
          exact absurd hpre (by decide)
        simp [FS.node, hq, lookupEntry_filterKeys, hqi]
    · exact absurd h (by simp)
    · exact absurd h (by simp)

lemma not_prefix_backupTarget (item bd : Path)
    (hnp : item.isPrefixOf bd = false) :
    item.isPrefixOf (backupTarget bd item) = false := by
  by_contra hc
  rw [Bool.not_eq_false, List.isPrefixOf_iff_prefix, backupTarget,
    List.prefix_concat_iff] at hc
  rcases hc with hc | hc
  · have hb : basename item = "deleted_" ++ basename item := by
      conv_lhs => rw [basename, hc]
      rw [List.getLastD_concat]
    have hlen := congrArg String.length hb
    rw [String.length_append] at hlen
    have h8 : ("deleted_" : String).length = 8 := by decide
    omega
  · rw [← List.isPrefixOf_iff_prefix] at hc
    simp [hc] at hnp

/-- Claim C2: Delete-with-backup. If both internal steps succeed, `delete_item`
reports success, a copy exists at `backup_dir/deleted_<name>`, and the item
is gone from its original path. If the backup-copy step fails, the removal
step is never executed: the result state is exactly the state after the
(pure) backup-directory creation, in which the item still exists.
(The hypothesis `hnp` excludes deleting an ancestor of the backup
directory itself, where the removal would take the fresh backup with it.) -/
theorem claim_C2 (fs : FS) (item bd : Path)
    (hex : fs.existsB item = true)
    (hnp : item.isPrefixOf bd = false) :
    (∀ fs2 fs3,
        deleteCopyStep (deletePrep fs bd) item (backupTarget bd item) = .ok fs2 →
        deleteRemoveStep fs2 item = .ok fs3 →
        delete_item fs item bd =
          (fs3, [basename item ++ " was deleted and backed up."]) ∧
        fs3.existsB (backupTarget bd item) = true ∧
        fs3.existsB item = false) ∧
    (∀ e,
        deleteCopyStep (deletePrep fs bd) item (backupTarget bd item) = .error e →
        delete_item fs item bd =
          (deletePrep fs bd, ["Error deleting item: " ++ e]) ∧
        (deletePrep fs bd).existsB item = true) := by
  constructor
  · intro fs2 fs3 hcopy hrem
    refine ⟨by simp [delete_item, hcopy, hrem], ?_, (deleteRemoveStep_ok _ _ _ hrem).1⟩
    have hbp2 := deleteCopyStep_ok_existsB _ _ _ _ hcopy
    obtain ⟨nd, hnd⟩ := node_of_existsB _ _ hbp2
    have hbpne : backupTarget bd item ≠ [] := by simp [backupTarget]
    have hnp' := not_prefix_backupTarget item bd hnp
    apply existsB_of_node _ _ nd
    rw [(deleteRemoveStep_ok _ _ _ hrem).2 _ hbpne hnp']
    exact hnd
  · intro e hcopy
    exact ⟨by simp [delete_item, hcopy], deletePrep_existsB_mono fs bd item hex⟩

/-- Witness for C2, failing branch: backing up directory `/tmp/d` collides
with the pre-existing backup `deleted_d`, the delete aborts, and `/tmp/d`
survives. -/
theorem claim_C2_witness :
    delete_item fsB ["tmp", "d"] backupsDir =
      (deletePrep fsB backupsDir, ["Error deleting item: FileExistsError"]) ∧
    (deletePrep fsB backupsDir).existsB ["tmp", "d"] = true :=
  (claim_C2 fsB ["tmp", "d"] backupsDir (by decide) (by decide)).2
    "FileExistsError" (by rfl)

/-- Claim C7: Copying a directory to a destination that already exists
fails: an error message is reported, no exception propagates (the
operation is total), and the filesystem — in particular the destination's
pre-existing contents — is unmodified. -/
theorem claim_C7 (fs : FS) (src dst : Path)
    (hs : fs.isDirB src = true) (hd : fs.existsB dst = true) :
    copy_item fs src dst = (fs, ["Error copying item: FileExistsError"]) := by
  simp [copy_item, FS.copytree, hs, hd]

/-! ## Claim C9: the listing -/

lemma childName_eq (p q : Path) (n : String) (h : childName p q = some n) :
    q = p ++ [n] := by
  unfold childName at h
  split at h
  · next htake =>
    split at h
    · next m hd =>
      injection h with h
      subst h
      conv_lhs => rw [← List.take_append_drop p.length q]
      rw [htake, hd]
    · exact absurd h (by simp)
  · exact absurd h (by simp)

lemma lookupEntry_isSome_of_mem (l : List (Path × Node)) (e : Path × Node)
    (he : e ∈ l) : ∃ nd, lookupEntry e.1 l = some nd := by
  induction l with
  | nil => cases he
  | cons f fs ih =>
    by_cases hf : f.1 = e.1
    · exact ⟨f.2, by simp [lookupEntry, hf]⟩
    · rcases List.mem_cons.mp he with rfl | hm
      · exact absurd rfl hf
      · obtain ⟨nd, hnd⟩ := ih hm
        exact ⟨nd, by simp [lookupEntry, hf, hnd]⟩

lemma childNames_node (fs : FS) (p : Path) (n : String)
    (h : n ∈ fs.childNames p) : ∃ nd, fs.node (p ++ [n]) = some nd := by
  unfold FS.childNames at h
  obtain ⟨e, he, hcn⟩ := List.mem_filterMap.mp h
  have hq := childName_eq p e.1 n hcn
  have hne : p ++ [n] ≠ [] := by simp
  rw [FS.node, if_neg hne, ← hq]
  exact lookupEntry_isSome_of_mem fs.entries e he

lemma renderLoop_total (fs : FS) (path : Path) (names : List String)
    (h : ∀ n ∈ names, ∃ nd, fs.node (path ++ [n]) = some nd) :
    renderLoop fs path names = names.map (renderEntry fs path) := by
  induction names with
  | nil => simp [renderLoop]
  | cons n rest ih =>
    obtain ⟨nd, hnd⟩ := h n (by simp)
    have hrest := ih (fun m hm => h m (by simp [hm]))
    by_cases hd : fs.isDirB (path ++ [n])
    · simp [renderLoop, hd, renderEntry, hrest]
    · cases nd with
      | dir => exact absurd (by simp [FS.isDirB, hnd]) hd
      | file sz =>
        simp [renderLoop, hd, FS.getsize, hnd, renderEntry, sizeD, hrest]

/-- Claim C9: For every directory path, the list operation renders each
immediate entry, in the iteration order of the underlying directory-read
primitive, as `<name>/` for a directory and `<name> - <size> bytes`
otherwise; for a non-directory path it prints a single error line. Either
way `list_directory` is total: nothing propagates to the dispatcher. -/
theorem claim_C9 (fs : FS) (path : Path) :
    (fs.isDirB path = true →
      list_directory fs path = (fs.childNames path).map (renderEntry fs path)) ∧
    (fs.isDirB path = false →
      ∃ e, list_directory fs path = ["Error listing directory: " ++ e]) := by
  constructor
  · intro hd
    have hnode : fs.node path = some .dir := by simpa [FS.isDirB] using hd
    unfold list_directory FS.listdirNames
    rw [hnode]
    exact renderLoop_total fs path _ (fun n hn => childNames_node fs path n hn)
  · intro hd
    unfold list_directory FS.listdirNames
    cases hnode : fs.node path with
    | none => exact ⟨"FileNotFoundError", rfl⟩
    | some nd =>
      cases nd with
      | dir =>
        have hdt : fs.isDirB path = true := by simp [FS.isDirB, hnode]
        rw [hdt] at hd
        exact absurd hd (by decide)
      | file sz => exact ⟨"NotADirectoryError", rfl⟩

/-- Witness for C9: listing `/tmp` in `fsA`, and a listing failure on a
missing path. -/
theorem claim_C9_witness :
    (fsA.isDirB ["tmp"] = true ∧
      list_directory fsA ["tmp"] =
        (fsA.childNames ["tmp"]).map (renderEntry fsA ["tmp"])) ∧
    (fsA.isDirB ["nope"] = false ∧
      ∃ e, list_directory fsA ["nope"] = ["Error listing directory: " ++ e]) :=
  ⟨⟨by decide, (claim_C9 fsA ["tmp"]).1 (by decide)⟩,
    ⟨by decide, (claim_C9 fsA ["nope"]).2 (by decide)⟩⟩

/-- Witness for C7: copying directory `/tmp/d` onto existing `/b/d`. -/
theorem claim_C7_witness :
    fsA.isDirB ["tmp", "d"] = true ∧ fsA.existsB ["b", "d"] = true ∧
    copy_item fsA ["tmp", "d"] ["b", "d"] =
      (fsA, ["Error copying item: FileExistsError"]) :=
  ⟨by decide, by decide,
    claim_C7 fsA ["tmp", "d"] ["b", "d"] (by decide) (by decide)⟩

/-! ## Claim C10: the current directory is never reassigned -/

lemma dispatchStep_currentDir (m : Mode) (s : Sess) (c : String) (a b : Path) :
    (dispatchStep m s c a b).sess.currentDir = s.currentDir := by
  unfold dispatchStep
  repeat' split <;> try rfl
  dsimp only
  split <;> rfl

lemma runLoop_currentDir (m : Mode) (s : Sess) (ins : List MenuInput) :
    (runLoop m s ins).1.currentDir = s.currentDir := by
  induction ins generalizing s with
  | nil => rfl
  | cons i rest ih =>
    by_cases he : (dispatchStep m s i.choice i.arg1 i.arg2).exited <;>
      simp [runLoop, he, ih, dispatchStep_currentDir]

/-- Claim C10: the variable `current_dir` is set once at startup and never reassigned: no
dispatcher step changes it, the list action always lists it, a whole run
of the loop preserves it — while the `change_directory` operation the
source defines (but never wires into the dispatcher) *would* return a new
path when given a valid directory. -/
theorem claim_C10 :
    (∀ (m : Mode) (s : Sess) (c : String) (a b : Path),
      (dispatchStep m s c a b).sess.currentDir = s.currentDir) ∧
    (∀ (m : Mode) (s : Sess) (a b : Path),
      dispatchStep m s "1" a b =
        { sess := s, printed := list_directory s.fs s.currentDir,
          exited := false }) ∧
    (∀ (m : Mode) (s : Sess) (ins : List MenuInput),
      (runLoop m s ins).1.currentDir = s.currentDir) ∧
    (∀ (fs : FS) (cur new : Path), fs.isDirB new = true →
      (change_directory fs cur new).1 = new) :=
  ⟨dispatchStep_currentDir, fun _ _ _ _ => rfl, runLoop_currentDir,
    fun fs cur new h => by simp [change_directory, h]⟩

/-- Witness for C10: a three-step admin session keeps listing `/tmp`,
while `change_directory` itself would have switched to `/b`. -/
theorem claim_C10_witness :
    (dispatchStep .admin ⟨fsA, [], ["tmp"]⟩ "4" ["tmp", "a.txt"]
      []).sess.currentDir = ["tmp"] ∧
    (runLoop .admin ⟨fsA, [], ["tmp"]⟩
      [⟨"1", [], []⟩, ⟨"4", ["tmp", "a.txt"], []⟩, ⟨"1", [], []⟩]).1.currentDir =
      ["tmp"] ∧
    (change_directory fsA ["tmp"] ["b"]).1 = ["b"] :=
  ⟨claim_C10.1 .admin ⟨fsA, [], ["tmp"]⟩ "4" ["tmp", "a.txt"] [],
    claim_C10.2.2.1 .admin ⟨fsA, [], ["tmp"]⟩
      [⟨"1", [], []⟩, ⟨"4", ["tmp", "a.txt"], []⟩, ⟨"1", [], []⟩],
    claim_C10.2.2.2 fsA ["tmp"] ["b"] (by decide)⟩

/-! ## Claim C8: when the dispatcher logs -/

/-- Claim C8: For the copy, move and delete menu actions, whenever the
entered source/item path exists the dispatcher appends exactly one log
line ("Copied ...", "Moved ...", "Deleted ...") — unconditionally, even
when the underlying operation fails — and it never logs when the path
does not exist, nor for the list action, exit, or any unrecognised
choice. -/
theorem claim_C8 (m : Mode) (s : Sess) (a b : Path) :
    ((m = .elevated ∨ m = .admin) → s.fs.existsB a = true →
      (dispatchStep m s "2" a b).sess.log =
        s.log ++ ["Copied " ++ pathStr a ++ " to " ++ pathStr b]) ∧
    ((m = .elevated ∨ m = .admin) → s.fs.existsB a = false →
      dispatchStep m s "2" a b =
        { sess := s, printed := ["Source does not exist."], exited := false }) ∧
    (m = .admin → s.fs.existsB a = true →
      (dispatchStep m s "3" a b).sess.log =
        s.log ++ ["Moved " ++ pathStr a ++ " to " ++ pathStr b]) ∧
    (m = .admin → s.fs.existsB a = false →
      dispatchStep m s "3" a b =
        { sess := s, printed := ["Source does not exist."], exited := false }) ∧
    (m = .admin → s.fs.existsB a = true →
      (dispatchStep m s "4" a b).sess.log = s.log ++ ["Deleted " ++ pathStr a]) ∧
    (m = .admin → (deletePrep s.fs backupsDir).existsB a = false →
      (dispatchStep m s "4" a b).sess.log = s.log ∧
      (dispatchStep m s "4" a b).printed = ["Item does not exist."]) ∧
    ((dispatchStep m s "1" a b).sess.log = s.log) ∧
    ((dispatchStep m s "0" a b).sess.log = s.log) ∧
    (∀ c, c ≠ "0" → c ≠ "1" → c ≠ "2" → c ≠ "3" → c ≠ "4" →
      (dispatchStep m s c a b).sess.log = s.log) := by
  refine ⟨?_, ?_, ?_, ?_, ?_, ?_, rfl, rfl, ?_⟩
  · rintro (rfl | rfl) hex <;> simp [dispatchStep, hex]
  · rintro (rfl | rfl) hex <;> simp [dispatchStep, hex]
  · rintro rfl hex; simp [dispatchStep, hex]
  · rintro rfl hex; simp [dispatchStep, hex]
  · rintro rfl hex
    have hex1 := deletePrep_existsB_mono s.fs backupsDir a hex
    simp [dispatchStep, hex1]
  · rintro rfl hex
    constructor <;> simp [dispatchStep, hex]
  · intro c h0 h1 h2 h3 h4
    simp [dispatchStep, h0, h1, h2, h3, h4]

/-- Witness for C8: a copy whose underlying `copytree` fails is still
logged; a missing source is not logged; an unrecognised choice is not
logged. -/
theorem claim_C8_witness :
    (dispatchStep .admin ⟨fsA, [], ["tmp"]⟩ "2" ["tmp", "d"] ["b", "d"]).sess.log =
      [] ++ ["Copied " ++ pathStr ["tmp", "d"] ++ " to " ++ pathStr ["b", "d"]] ∧
    dispatchStep .admin ⟨fsA, [], ["tmp"]⟩ "2" ["nope"] ["b"] =
      { sess := ⟨fsA, [], ["tmp"]⟩, printed := ["Source does not exist."],
        exited := false } ∧
    (dispatchStep .basic ⟨fsA, [], ["tmp"]⟩ "9" [] []).sess.log = [] :=
  ⟨(claim_C8 .admin ⟨fsA, [], ["tmp"]⟩ ["tmp", "d"] ["b", "d"]).1
      (Or.inr rfl) (by decide),
    (claim_C8 .admin ⟨fsA, [], ["tmp"]⟩ ["nope"] ["b"]).2.1
      (Or.inr rfl) (by decide),
    (claim_C8 .basic ⟨fsA, [], ["tmp"]⟩ [] []).2.2.2.2.2.2.2.2 "9"
      (by decide) (by decide) (by decide) (by decide) (by decide)⟩

/-! ## Claim C6: colliding backup names -/

/-- Counterexample to C6 as stated: for *directories* the second delete's
backup does not overwrite the first — the backup-copy step fails with
`FileExistsError`, the second delete aborts (so "two successive
successful deletes" of same-named directories are impossible), the second
directory survives, and the backup still holds the first directory's
contents (`x`, not `y`). -/
theorem claim_C6_counterexample :
    (delete_item fsC ["a", "N"] backupsDir).2 =
      ["N was deleted and backed up."] ∧
    (delete_item (delete_item fsC ["a", "N"] backupsDir).1
        ["b", "N"] backupsDir).2 = ["Error deleting item: FileExistsError"] ∧
    (delete_item (delete_item fsC ["a", "N"] backupsDir).1
        ["b", "N"] backupsDir).1.existsB ["b", "N"] = true ∧
    (delete_item (delete_item fsC ["a", "N"] backupsDir).1
        ["b", "N"] backupsDir).1.node
      (backupTarget backupsDir ["b", "N"] ++ ["x"]) = some (.file 3) ∧
    (delete_item (delete_item fsC ["a", "N"] backupsDir).1
        ["b", "N"] backupsDir).1.node
      (backupTarget backupsDir ["b", "N"] ++ ["y"]) = none := by
  refine ⟨rfl, rfl, rfl, rfl, rfl⟩

/-- Claim C6, corrected. Backup targets of same-named items always collide
(the target depends only on the base name). For *files*, the second
successful delete's backup overwrites the first (sizes 3 then 7). For
*directories*, the second delete's backup-copy fails on the collision and
the delete aborts, leaving the first backup in place. -/
theorem claim_C6 :
    (∀ (bd X Y : Path), basename X = basename Y →
      backupTarget bd X = backupTarget bd Y) ∧
    ((delete_item fsD ["a", "N"] backupsDir).2 =
        ["N was deleted and backed up."] ∧
      (delete_item (delete_item fsD ["a", "N"] backupsDir).1
          ["b", "N"] backupsDir).2 = ["N was deleted and backed up."] ∧
      (delete_item fsD ["a", "N"] backupsDir).1.node
        (backupTarget backupsDir ["a", "N"]) = some (.file 3) ∧
      (delete_item (delete_item fsD ["a", "N"] backupsDir).1
          ["b", "N"] backupsDir).1.node
        (backupTarget backupsDir ["b", "N"]) = some (.file 7)) ∧
    ((delete_item fsC ["a", "N"] backupsDir).2 =
        ["N was deleted and backed up."] ∧
      (delete_item (delete_item fsC ["a", "N"] backupsDir).1
          ["b", "N"] backupsDir).2 = ["Error deleting item: FileExistsError"] ∧
      (delete_item (delete_item fsC ["a", "N"] backupsDir).1
          ["b", "N"] backupsDir).1.existsB ["b", "N"] = true) := by
  refine ⟨fun bd X Y h => by simp [backupTarget, h],
    ⟨rfl, rfl, rfl, rfl⟩, ⟨rfl, rfl, rfl⟩⟩

/-- Witness for C6: the collision equation at two concrete same-named
items. -/
theorem claim_C6_witness :
    backupTarget backupsDir ["a", "N"] = backupTarget backupsDir ["b", "N"] :=
  claim_C6.1 backupsDir ["a", "N"] ["b", "N"] rfl

end FileManager
